import Mathlib

/-!
Verification development for the `scout` shard-execution host
(`src/src/main.rs`).  The Rust source is shallowly embedded: pure data
types become Lean structures, the host-call dispatcher
`Runtime::invoke_index` becomes a function on an explicit `Runtime`
state returning `Except`, and every `unwrap` / `expect` /
`unimplemented` / `panic` in the source is modelled as an
`Except.error` carrying a message (a host-process abort).  The external
wasm interpreter (wasmi) is out of scope of the source; its observable
behaviour during one run is modelled as a `GuestBehavior` value
(module decode / instantiation / memory-export outcomes, the sequence
of host calls and guest memory writes, and whether the guest traps).
-/

namespace Scout

/-- Modelled from the spec: `Bytes32` lives in the repository file
`src/types.rs`, which is not present under `src/`; §3 of the spec
describes `Digest32` as a fixed 32-byte value whose default is the
all-zero digest, matching the visible uses `Bytes32 { bytes: [u8; 32] }`
and `Bytes32::default()` in `main.rs`. -/
structure Bytes32 where
  bytes : List Nat
  deriving DecidableEq

/-- `Bytes32::default()`: the all-zero 32-byte digest. -/
def Bytes32.default : Bytes32 := ⟨List.replicate 32 0⟩

/-- `const ZERO_HASH: Bytes32 = Bytes32 { bytes: [0u8; 32] };` -/
def ZERO_HASH : Bytes32 := ⟨List.replicate 32 0⟩

/-- `struct Deposit {}` — a marker type with no payload. -/
inductive Deposit where
  | mk : Deposit
  deriving DecidableEq

/-- `struct ExecutionScript { code: Vec<u8> }` -/
structure ExecutionScript where
  code : List Nat
  deriving DecidableEq

/-- `struct BeaconState { execution_scripts: Vec<ExecutionScript> }` -/
structure BeaconState where
  execution_scripts : List ExecutionScript
  deriving DecidableEq

/-- `struct ShardBlockHeader {}` -/
inductive ShardBlockHeader where
  | mk : ShardBlockHeader
  deriving DecidableEq

/-- `struct ShardBlockBody { data: Vec<u8> }` -/
structure ShardBlockBody where
  data : List Nat
  deriving DecidableEq

/-- `struct ShardBlock { env: u64, data: ShardBlockBody }` -/
structure ShardBlock where
  env : Nat
  data : ShardBlockBody
  deriving DecidableEq

/-- `struct ShardState { exec_env_states: Vec<Bytes32>, slot: u64,
parent_block: ShardBlockHeader }` -/
structure ShardState where
  exec_env_states : List Bytes32
  slot : Nat
  parent_block : ShardBlockHeader
  deriving DecidableEq

/-- Modelled from the spec: bounds-checked write into the guest linear
memory (wasmi `MemoryInstance::set`, an external collaborator; §4.1
`write(offset, bytes)` fails if `offset + length` exceeds the region).
Returns `none` on an out-of-range access, in which case the source
calls `.unwrap()` and the host aborts. -/
def memSet (mem : List Nat) (ptr : Nat) (val : List Nat) : Option (List Nat) :=
  if ptr + val.length ≤ mem.length then
    some (mem.take ptr ++ val ++ mem.drop (ptr + val.length))
  else
    none

/-- Modelled from the spec: bounds-checked read of `n` bytes from guest
linear memory (wasmi `MemoryInstance::get_into`, an external
collaborator; §4.1 `read(offset, length)` fails if `offset + length`
exceeds the region). -/
def memGet (mem : List Nat) (ptr n : Nat) : Option (List Nat) :=
  if ptr + n ≤ mem.length then
    some ((mem.drop ptr).take n)
  else
    none

/-- `len as i32` in `block_data_size`: wrap a length to a signed 32-bit
integer value. -/
def toI32 (n : Nat) : Int :=
  let m : Nat := n % 2 ^ 32
  if m < 2 ^ 31 then (m : Int) else (m : Int) - 2 ^ 32

/-- `struct Runtime` (main.rs lines 23–28): the per-execution session
state.  `memory` is the guest linear memory the session is bound to
(`Option` collapsed: every use in the source goes through
`self.memory.as_ref().expect(..)`, and by the time host calls run the
memory has been bound at line 232). -/
structure Runtime where
  memory : List Nat
  pre_state : Bytes32
  block_data : ShardBlockBody
  post_state : Bytes32
  deriving DecidableEq

def LOADPRESTATE_FUNC_INDEX : Nat := 0
def BLOCKDATASIZE_FUNC_INDEX : Nat := 1
def BLOCKDATACOPY_FUNC_INDEX : Nat := 2
def SAVEPOSTSTATE_FUNC_INDEX : Nat := 3
def PUSHNEWDEPOSIT_FUNC_INDEX : Nat := 4

/-- `Runtime::invoke_index` (main.rs lines 46–101).  Each arm is the
direct translation of the corresponding `match index` arm; every
`unwrap` on a failed memory access, the unimplemented deposit arm and
the unknown-index arm become `Except.error` (a host abort).  `args`
holds the guest-supplied `u32` arguments; a missing argument
(impossible through the linker signatures) also aborts, as `args.nth`
does in the source. -/
def invokeIndex (rt : Runtime) (index : Nat) (args : List Nat) :
    Except String (Option Int × Runtime) :=
  if index = LOADPRESTATE_FUNC_INDEX then
    match args with
    | ptr :: _ =>
      match memSet rt.memory ptr rt.pre_state.bytes with
      | some m => Except.ok (none, { rt with memory := m })
      | none => Except.error "abort: memory.set unwrap in loadprestate"
    | [] => Except.error "abort: args.nth"
  else if index = SAVEPOSTSTATE_FUNC_INDEX then
    match args with
    | ptr :: _ =>
      match memGet rt.memory ptr rt.post_state.bytes.length with
      | some bs => Except.ok (none, { rt with post_state := ⟨bs⟩ })
      | none => Except.error "abort: memory.get_into unwrap in savepoststate"
    | [] => Except.error "abort: args.nth"
  else if index = BLOCKDATASIZE_FUNC_INDEX then
    Except.ok (some (toI32 rt.block_data.data.length), rt)
  else if index = BLOCKDATACOPY_FUNC_INDEX then
    match args with
    | ptr :: offset :: length :: _ =>
      -- the source slices `self.block_data.data[offset..length]`,
      -- which aborts unless `offset ≤ length ∧ length ≤ data.len()`
      if offset ≤ length ∧ length ≤ rt.block_data.data.length then
        let slice := (rt.block_data.data.drop offset).take (length - offset)
        match memSet rt.memory ptr slice with
        | some m => Except.ok (none, { rt with memory := m })
        | none => Except.error "abort: memory.set unwrap in blockdatacopy"
      else
        Except.error "abort: slice index out of range in blockdatacopy"
    | _ => Except.error "abort: args.nth"
  else if index = PUSHNEWDEPOSIT_FUNC_INDEX then
    Except.error "abort: unimplemented pushnewdeposit"
  else
    Except.error "abort: unknown function index"

/-- One observable guest action during a run: either a call into the
host interface (dispatched through `Runtime::invoke_index`) or a store
by the guest into its own linear memory (executed by the external
interpreter, bounds-checked; an out-of-bounds guest store traps, and
the unwrapped `invoke_export` result then aborts the host). -/
inductive GuestEvent where
  | hostCall (index : Nat) (args : List Nat) : GuestEvent
  | guestWrite (ptr : Nat) (bytes : List Nat) : GuestEvent
  deriving DecidableEq

/-- Run one guest event against the session state. -/
def runEvent (rt : Runtime) (ev : GuestEvent) : Except String Runtime :=
  match ev with
  | GuestEvent.hostCall index args =>
    match invokeIndex rt index args with
    | Except.ok (_, rt) => Except.ok rt
    | Except.error e => Except.error e
  | GuestEvent.guestWrite ptr bytes =>
    match memSet rt.memory ptr bytes with
    | some m => Except.ok { rt with memory := m }
    | none => Except.error "abort: guest trap on out of bounds store"

/-- Run a sequence of guest events (the observable behaviour of one
invocation of the exported `main`). -/
def runEvents (rt : Runtime) : List GuestEvent → Except String Runtime
  | [] => Except.ok rt
  | ev :: evs =>
    match runEvent rt ev with
    | Except.ok rt => runEvents rt evs
    | Except.error e => Except.error e

/-- Modelled from the spec: the observable behaviour of the external
wasm interpreter (wasmi) on one module for fixed inputs — whether the
bytecode decodes (`Module::from_buffer`), whether instantiation
and import resolution succeed (`ModuleInstance::new` plus
`assert_no_start`), whether a `memory` export exists, the initial
contents of the exported linear memory, the sequence of host calls and
guest stores `main` performs, and whether `main` finally traps.  The
interpreter is deterministic, so one behaviour per module and input. -/
structure GuestBehavior where
  decodeOk : Bool
  instantiateOk : Bool
  memoryExport : Bool
  initMem : List Nat
  events : List GuestEvent
  trapsAtEnd : Bool
  deriving DecidableEq

/-- The session state at the start of a run: `Runtime::new` builds it
with the given pre-state and block data and with
`post_state = Bytes32::default()` (main.rs line 36); its memory is then
replaced by the linear memory exported by the instantiated module
(main.rs line 232). -/
def initialRuntime (g : GuestBehavior) (pre_state : Bytes32)
    (block_data : ShardBlockBody) : Runtime :=
  { memory := g.initMem
    pre_state := pre_state
    block_data := block_data
    post_state := Bytes32.default }

/-- `execute_code` (main.rs lines 203–242), with the external
interpreter abstracted as `g : GuestBehavior`:
`wasm_load_from_blob` unwraps module decoding, `ModuleInstance::new`
is unwrapped and `assert_no_start` asserted, the `memory` export is
looked up and asserted present, `main` is invoked with the runtime as
externals and the result asserted non-trapping, and on success the
function returns `(runtime.get_post_state(), vec![Deposit])` —
a fresh one-element deposit list, not anything accumulated during the
run. -/
def execute_code (g : GuestBehavior) (_code : List Nat) (pre_state : Bytes32)
    (block_data : ShardBlockBody) : Except String (Bytes32 × List Deposit) :=
  if ¬g.decodeOk then Except.error "abort: Module from_buffer unwrap"
  else if ¬g.instantiateOk then Except.error "abort: ModuleInstance new unwrap"
  else if ¬g.memoryExport then Except.error "abort: Module expected to have memory export"
  else
    match runEvents (initialRuntime g pre_state block_data) g.events with
    | Except.error e => Except.error e
    | Except.ok rt =>
      if g.trapsAtEnd then Except.error "abort: Executed main expect"
      else Except.ok (rt.post_state, [Deposit.mk])

/-- `process_shard_block` (main.rs lines 244–273), with the external
interpreter abstracted as `g : GuestBehavior`.  `state` is passed as
`&mut ShardState`; a host abort is modelled as `Except.error` carrying
both the message and the state the caller holds at the moment of the
abort.  The translation follows the source line by line: on a present
block, `beacon_state.execution_scripts[env]` is indexed first (an
out-of-bounds index aborts with the state untouched), then the loop
`for x in 0..env` pushes `ZERO_HASH` exactly `env` times
unconditionally, then `state.exec_env_states[env]` is read (an
out-of-bounds index aborts with the pushed zeros retained), the code is
executed, and on success the result digest is written back at `env`
(the returned deposits are dropped). -/
def process_shard_block (g : GuestBehavior) (state : ShardState)
    (beacon_state : BeaconState) (block : Option ShardBlock) :
    Except (String × ShardState) ShardState :=
  match block with
  | none => Except.ok state
  | some block =>
    let env := block.env
    if henv : env < beacon_state.execution_scripts.length then
      let code := (beacon_state.execution_scripts.get ⟨env, henv⟩).code
      let state1 :=
        { state with
            exec_env_states :=
              state.exec_env_states ++ List.replicate env ZERO_HASH }
      if hpre : env < state1.exec_env_states.length then
        let pre_state := state1.exec_env_states.get ⟨env, hpre⟩
        match execute_code g code pre_state block.data with
        | Except.ok (post_state, _deposits) =>
          Except.ok
            { state1 with
                exec_env_states := state1.exec_env_states.set env post_state }
        | Except.error e => Except.error (e, state1)
      else
        Except.error ("abort: index out of bounds on exec_env_states", state1)
    else
      Except.error ("abort: index out of bounds on execution_scripts", state)

/-- Whether a guest event is a call to the save-post-state host
function. -/
def isSaveCall : GuestEvent → Bool
  | GuestEvent.hostCall index _ => index == SAVEPOSTSTATE_FUNC_INDEX
  | GuestEvent.guestWrite _ _ => false

/-- Small-step transition relation for one guest event, one constructor
per arm of `Runtime::invoke_index` (and per outcome of a guest store).
It is the relational reading of the source dispatch; that it relates
each configuration to at most one outcome is proved below, and it
agrees with the functional translation `runEvent`. -/
inductive StepR : Runtime → GuestEvent → Except String Runtime → Prop where
  | load_some : ∀ (rt : Runtime) (p : Nat) (rest : List Nat) (m : List Nat),
      memSet rt.memory p rt.pre_state.bytes = some m →
      StepR rt (GuestEvent.hostCall 0 (p :: rest))
        (Except.ok { rt with memory := m })
  | load_none : ∀ (rt : Runtime) (p : Nat) (rest : List Nat),
      memSet rt.memory p rt.pre_state.bytes = none →
      StepR rt (GuestEvent.hostCall 0 (p :: rest))
        (Except.error "abort: memory.set unwrap in loadprestate")
  | load_noargs : ∀ (rt : Runtime),
      StepR rt (GuestEvent.hostCall 0 []) (Except.error "abort: args.nth")
  | save_some : ∀ (rt : Runtime) (p : Nat) (rest : List Nat) (bs : List Nat),
      memGet rt.memory p rt.post_state.bytes.length = some bs →
      StepR rt (GuestEvent.hostCall 3 (p :: rest))
        (Except.ok { rt with post_state := ⟨bs⟩ })
  | save_none : ∀ (rt : Runtime) (p : Nat) (rest : List Nat),
      memGet rt.memory p rt.post_state.bytes.length = none →
      StepR rt (GuestEvent.hostCall 3 (p :: rest))
        (Except.error "abort: memory.get_into unwrap in savepoststate")
  | save_noargs : ∀ (rt : Runtime),
      StepR rt (GuestEvent.hostCall 3 []) (Except.error "abort: args.nth")
  | datasize : ∀ (rt : Runtime) (args : List Nat),
      StepR rt (GuestEvent.hostCall 1 args) (Except.ok rt)
  | copy_some : ∀ (rt : Runtime) (p o l : Nat) (rest : List Nat) (m : List Nat),
      o ≤ l ∧ l ≤ rt.block_data.data.length →
      memSet rt.memory p ((rt.block_data.data.drop o).take (l - o)) = some m →
      StepR rt (GuestEvent.hostCall 2 (p :: o :: l :: rest))
        (Except.ok { rt with memory := m })
  | copy_none : ∀ (rt : Runtime) (p o l : Nat) (rest : List Nat),
      o ≤ l ∧ l ≤ rt.block_data.data.length →
      memSet rt.memory p ((rt.block_data.data.drop o).take (l - o)) = none →
      StepR rt (GuestEvent.hostCall 2 (p :: o :: l :: rest))
        (Except.error "abort: memory.set unwrap in blockdatacopy")
  | copy_slice : ∀ (rt : Runtime) (p o l : Nat) (rest : List Nat),
      ¬(o ≤ l ∧ l ≤ rt.block_data.data.length) →
      StepR rt (GuestEvent.hostCall 2 (p :: o :: l :: rest))
        (Except.error "abort: slice index out of range in blockdatacopy")
  | copy_noargs : ∀ (rt : Runtime) (args : List Nat),
      args.length < 3 →
      StepR rt (GuestEvent.hostCall 2 args) (Except.error "abort: args.nth")
  | push : ∀ (rt : Runtime) (args : List Nat),
      StepR rt (GuestEvent.hostCall 4 args)
        (Except.error "abort: unimplemented pushnewdeposit")
  | unknown : ∀ (rt : Runtime) (index : Nat) (args : List Nat),
      index ≠ 0 → index ≠ 1 → index ≠ 2 → index ≠ 3 → index ≠ 4 →
      StepR rt (GuestEvent.hostCall index args)
        (Except.error "abort: unknown function index")
  | gw_some : ∀ (rt : Runtime) (p : Nat) (bytes : List Nat) (m : List Nat),
      memSet rt.memory p bytes = some m →
      StepR rt (GuestEvent.guestWrite p bytes)
        (Except.ok { rt with memory := m })
  | gw_none : ∀ (rt : Runtime) (p : Nat) (bytes : List Nat),
      memSet rt.memory p bytes = none →
      StepR rt (GuestEvent.guestWrite p bytes)
        (Except.error "abort: guest trap on out of bounds store")

/-- Multi-step run relation over a sequence of guest events. -/
inductive RunR : Runtime → List GuestEvent → Except String Runtime → Prop where
  | nil : ∀ (rt : Runtime), RunR rt [] (Except.ok rt)
  | consOk : ∀ (rt : Runtime) (ev : GuestEvent) (rt1 : Runtime)
      (evs : List GuestEvent) (r : Except String Runtime),
      StepR rt ev (Except.ok rt1) → RunR rt1 evs r → RunR rt (ev :: evs) r
  | consErr : ∀ (rt : Runtime) (ev : GuestEvent) (e : String)
      (evs : List GuestEvent),
      StepR rt ev (Except.error e) → RunR rt (ev :: evs) (Except.error e)

/-- Relational reading of `execute_code`: one constructor per stage of
main.rs lines 203–242 (module decode, instantiation, memory export,
the run of `main`, the final trap check, and the successful return). -/
inductive ExecR (g : GuestBehavior) (code : List Nat) (pre_state : Bytes32)
    (block_data : ShardBlockBody) :
    Except String (Bytes32 × List Deposit) → Prop where
  | decodeFail : g.decodeOk = false →
      ExecR g code pre_state block_data
        (Except.error "abort: Module from_buffer unwrap")
  | instFail : g.decodeOk = true → g.instantiateOk = false →
      ExecR g code pre_state block_data
        (Except.error "abort: ModuleInstance new unwrap")
  | memFail : g.decodeOk = true → g.instantiateOk = true →
      g.memoryExport = false →
      ExecR g code pre_state block_data
        (Except.error "abort: Module expected to have memory export")
  | runFail : ∀ (e : String), g.decodeOk = true → g.instantiateOk = true →
      g.memoryExport = true →
      RunR (initialRuntime g pre_state block_data) g.events (Except.error e) →
      ExecR g code pre_state block_data (Except.error e)
  | trapEnd : ∀ (rt : Runtime), g.decodeOk = true → g.instantiateOk = true →
      g.memoryExport = true →
      RunR (initialRuntime g pre_state block_data) g.events (Except.ok rt) →
      g.trapsAtEnd = true →
      ExecR g code pre_state block_data
        (Except.error "abort: Executed main expect")
  | success : ∀ (rt : Runtime), g.decodeOk = true → g.instantiateOk = true →
      g.memoryExport = true →
      RunR (initialRuntime g pre_state block_data) g.events (Except.ok rt) →
      g.trapsAtEnd = false →
      ExecR g code pre_state block_data
        (Except.ok (rt.post_state, [Deposit.mk]))

/-! Concrete inputs used to exercise the model. -/

/-- A guest whose module decodes, instantiates and exports a memory of
8 zero bytes, and whose `main` performs no host calls and returns
without trapping. -/
def guestOkEmpty : GuestBehavior :=
  { decodeOk := true, instantiateOk := true, memoryExport := true,
    initMem := List.replicate 8 0, events := [], trapsAtEnd := false }

/-- Like `guestOkEmpty` but the module lacks the `memory` export. -/
def guestNoMemoryExport : GuestBehavior :=
  { guestOkEmpty with memoryExport := false }

/-- A guest with a 32-byte memory filled with the byte 7 whose `main`
makes a single save-post-state call at offset 0. -/
def guestSaveOnce : GuestBehavior :=
  { decodeOk := true, instantiateOk := true, memoryExport := true,
    initMem := List.replicate 32 7,
    events := [GuestEvent.hostCall SAVEPOSTSTATE_FUNC_INDEX [0]],
    trapsAtEnd := false }

/-- A session with an 8-byte guest memory and a 3-byte block body. -/
def rtSmall : Runtime :=
  { memory := List.replicate 8 0
    pre_state := ZERO_HASH
    block_data := ⟨[10, 20, 30]⟩
    post_state := ZERO_HASH }

/-- A session with a 40-byte guest memory and a distinctive 32-byte
pre-state. -/
def rtRound : Runtime :=
  { memory := List.replicate 40 7
    pre_state := ⟨List.replicate 32 1⟩
    block_data := ⟨[]⟩
    post_state := Bytes32.default }

/-! Helper lemmas about the memory model. -/

theorem memSet_length {mem : List Nat} {ptr : Nat} {val m : List Nat}
    (h : memSet mem ptr val = some m) : m.length = mem.length := by
  unfold memSet at h
  split at h
  · injection h with h
    subst h
    simp only [List.length_append, List.length_take, List.length_drop]
    omega
  · exact absurd h (by simp)

theorem memSet_bound {mem : List Nat} {ptr : Nat} {val m : List Nat}
    (h : memSet mem ptr val = some m) : ptr + val.length ≤ mem.length := by
  unfold memSet at h
  split at h
  · assumption
  · exact absurd h (by simp)

theorem memSet_isSome {mem : List Nat} {ptr : Nat} {val : List Nat}
    (h : ptr + val.length ≤ mem.length) :
    memSet mem ptr val =
      some (mem.take ptr ++ val ++ mem.drop (ptr + val.length)) := by
  unfold memSet
  exact if_pos h

theorem memGet_length {mem : List Nat} {ptr n : Nat} {bs : List Nat}
    (h : memGet mem ptr n = some bs) : bs.length = n := by
  unfold memGet at h
  split at h
  · injection h with h
    subst h
    simp only [List.length_take, List.length_drop]
    omega
  · exact absurd h (by simp)

/-- Reading back exactly the bytes just written. -/
theorem memGet_memSet {mem : List Nat} {ptr : Nat} {val m : List Nat}
    (h : memSet mem ptr val = some m) :
    memGet m ptr val.length = some val := by
  have hb := memSet_bound h
  have hl := memSet_length h
  unfold memSet at h
  rw [if_pos hb] at h
  injection h with h
  subst h
  unfold memGet
  rw [if_pos (by rw [hl]; exact hb)]
  congr 1
  have htake : (mem.take ptr).length = ptr := by
    simp only [List.length_take]
    omega
  rw [List.append_assoc, List.drop_left' htake,
    List.take_left' rfl]

/-! The relational semantics agrees with the functional translation. -/

theorem StepR_runEvent {rt : Runtime} {ev : GuestEvent}
    {r : Except String Runtime} (h : StepR rt ev r) : runEvent rt ev = r := by
  cases h with
  | load_some p rest m hm =>
    simp [runEvent, invokeIndex, LOADPRESTATE_FUNC_INDEX, hm]
  | load_none p rest hm =>
    simp [runEvent, invokeIndex, LOADPRESTATE_FUNC_INDEX, hm]
  | load_noargs =>
    simp [runEvent, invokeIndex, LOADPRESTATE_FUNC_INDEX]
  | save_some p rest bs hm =>
    simp [runEvent, invokeIndex, LOADPRESTATE_FUNC_INDEX,
      SAVEPOSTSTATE_FUNC_INDEX, hm]
  | save_none p rest hm =>
    simp [runEvent, invokeIndex, LOADPRESTATE_FUNC_INDEX,
      SAVEPOSTSTATE_FUNC_INDEX, hm]
  | save_noargs =>
    simp [runEvent, invokeIndex, LOADPRESTATE_FUNC_INDEX,
      SAVEPOSTSTATE_FUNC_INDEX]
  | datasize args =>
    simp [runEvent, invokeIndex, LOADPRESTATE_FUNC_INDEX,
      SAVEPOSTSTATE_FUNC_INDEX, BLOCKDATASIZE_FUNC_INDEX]
  | copy_some p o l rest m hcond hm =>
    simp [runEvent, invokeIndex, LOADPRESTATE_FUNC_INDEX,
      SAVEPOSTSTATE_FUNC_INDEX, BLOCKDATASIZE_FUNC_INDEX,
      BLOCKDATACOPY_FUNC_INDEX, hcond, hm]
  | copy_none p o l rest hcond hm =>
    simp [runEvent, invokeIndex, LOADPRESTATE_FUNC_INDEX,
      SAVEPOSTSTATE_FUNC_INDEX, BLOCKDATASIZE_FUNC_INDEX,
      BLOCKDATACOPY_FUNC_INDEX, hcond, hm]
  | copy_slice p o l rest hcond =>
    simp [runEvent, invokeIndex, LOADPRESTATE_FUNC_INDEX,
      SAVEPOSTSTATE_FUNC_INDEX, BLOCKDATASIZE_FUNC_INDEX,
      BLOCKDATACOPY_FUNC_INDEX, hcond]
  | copy_noargs args hlen =>
    rcases args with _ | ⟨a, _ | ⟨b, _ | ⟨c, t⟩⟩⟩
    · simp [runEvent, invokeIndex, LOADPRESTATE_FUNC_INDEX,
        SAVEPOSTSTATE_FUNC_INDEX, BLOCKDATASIZE_FUNC_INDEX,
        BLOCKDATACOPY_FUNC_INDEX]
    · simp [runEvent, invokeIndex, LOADPRESTATE_FUNC_INDEX,
        SAVEPOSTSTATE_FUNC_INDEX, BLOCKDATASIZE_FUNC_INDEX,
        BLOCKDATACOPY_FUNC_INDEX]
    · simp [runEvent, invokeIndex, LOADPRESTATE_FUNC_INDEX,
        SAVEPOSTSTATE_FUNC_INDEX, BLOCKDATASIZE_FUNC_INDEX,
        BLOCKDATACOPY_FUNC_INDEX]
    · exact absurd hlen (by simp)
  | push args =>
    simp [runEvent, invokeIndex, LOADPRESTATE_FUNC_INDEX,
      SAVEPOSTSTATE_FUNC_INDEX, BLOCKDATASIZE_FUNC_INDEX,
      BLOCKDATACOPY_FUNC_INDEX, PUSHNEWDEPOSIT_FUNC_INDEX]
  | unknown index args h0 h1 h2 h3 h4 =>
    simp [runEvent, invokeIndex, LOADPRESTATE_FUNC_INDEX,
      SAVEPOSTSTATE_FUNC_INDEX, BLOCKDATASIZE_FUNC_INDEX,
      BLOCKDATACOPY_FUNC_INDEX, PUSHNEWDEPOSIT_FUNC_INDEX,
      h0, h1, h2, h3, h4]
  | gw_some p bytes m hm =>
    simp [runEvent, hm]
  | gw_none p bytes hm =>
    simp [runEvent, hm]

theorem RunR_runEvents {rt : Runtime} {evs : List GuestEvent}
    {r : Except String Runtime} (h : RunR rt evs r) : runEvents rt evs = r := by
  induction h with
  | nil rt => rfl
  | consOk rt ev rt1 evs r hstep _ ih =>
    simp [runEvents, StepR_runEvent hstep, ih]
  | consErr rt ev e evs hstep =>
    simp [runEvents, StepR_runEvent hstep]

theorem ExecR_execute_code {g : GuestBehavior} {code : List Nat}
    {pre_state : Bytes32} {block_data : ShardBlockBody}
    {r : Except String (Bytes32 × List Deposit)}
    (h : ExecR g code pre_state block_data r) :
    execute_code g code pre_state block_data = r := by
  cases h with
  | decodeFail hd => simp [execute_code, hd]
  | instFail hd hi => simp [execute_code, hd, hi]
  | memFail hd hi hm => simp [execute_code, hd, hi, hm]
  | runFail e hd hi hm hrun =>
    simp [execute_code, hd, hi, hm, RunR_runEvents hrun]
  | trapEnd rt hd hi hm hrun ht =>
    simp [execute_code, hd, hi, hm, RunR_runEvents hrun, ht]
  | success rt hd hi hm hrun ht =>
    simp [execute_code, hd, hi, hm, RunR_runEvents hrun, ht]

/-! Tracking the post-state digest along a run. -/

theorem runEvents_append (l1 : List GuestEvent) :
    ∀ (rt : Runtime) (l2 : List GuestEvent),
    runEvents rt (l1 ++ l2) =
      match runEvents rt l1 with
      | Except.ok rt1 => runEvents rt1 l2
      | Except.error e => Except.error e := by
  induction l1 with
  | nil => intro rt l2; rfl
  | cons ev evs ih =>
    intro rt l2
    show runEvents rt (ev :: (evs ++ l2)) = _
    cases hre : runEvent rt ev with
    | ok rt1 => simp [runEvents, hre, ih]
    | error e => simp [runEvents, hre]

/-- Completeness of the step relation: it relates every configuration
to the outcome the functional translation computes. -/
theorem runEvent_StepR (rt : Runtime) (ev : GuestEvent) :
    StepR rt ev (runEvent rt ev) := by
  cases ev with
  | guestWrite p bytes =>
    cases hm : memSet rt.memory p bytes with
    | some m =>
      rw [show runEvent rt (GuestEvent.guestWrite p bytes) =
        Except.ok { rt with memory := m } from by simp [runEvent, hm]]
      exact StepR.gw_some rt p bytes m hm
    | none =>
      rw [show runEvent rt (GuestEvent.guestWrite p bytes) =
        Except.error "abort: guest trap on out of bounds store" from by
          simp [runEvent, hm]]
      exact StepR.gw_none rt p bytes hm
  | hostCall index args =>
    by_cases h0 : index = 0
    · subst h0
      cases args with
      | nil =>
        rw [show runEvent rt (GuestEvent.hostCall 0 []) =
          Except.error "abort: args.nth" from by
            simp [runEvent, invokeIndex, LOADPRESTATE_FUNC_INDEX]]
        exact StepR.load_noargs rt
      | cons p rest =>
        cases hm : memSet rt.memory p rt.pre_state.bytes with
        | some m =>
          rw [show runEvent rt (GuestEvent.hostCall 0 (p :: rest)) =
            Except.ok { rt with memory := m } from by
              simp [runEvent, invokeIndex, LOADPRESTATE_FUNC_INDEX, hm]]
          exact StepR.load_some rt p rest m hm
        | none =>
          rw [show runEvent rt (GuestEvent.hostCall 0 (p :: rest)) =
            Except.error "abort: memory.set unwrap in loadprestate" from by
              simp [runEvent, invokeIndex, LOADPRESTATE_FUNC_INDEX, hm]]
          exact StepR.load_none rt p rest hm
    · by_cases h1 : index = 1
      · subst h1
        rw [show runEvent rt (GuestEvent.hostCall 1 args) = Except.ok rt from by
          simp [runEvent, invokeIndex, LOADPRESTATE_FUNC_INDEX,
            SAVEPOSTSTATE_FUNC_INDEX, BLOCKDATASIZE_FUNC_INDEX]]
        exact StepR.datasize rt args
      · by_cases h2 : index = 2
        · subst h2
          rcases args with _ | ⟨p, _ | ⟨o, _ | ⟨l, rest⟩⟩⟩
          · rw [show runEvent rt (GuestEvent.hostCall 2 []) =
              Except.error "abort: args.nth" from by
                simp [runEvent, invokeIndex, LOADPRESTATE_FUNC_INDEX,
                  SAVEPOSTSTATE_FUNC_INDEX, BLOCKDATASIZE_FUNC_INDEX,
                  BLOCKDATACOPY_FUNC_INDEX]]
            exact StepR.copy_noargs rt [] (by simp)
          · rw [show runEvent rt (GuestEvent.hostCall 2 [p]) =
              Except.error "abort: args.nth" from by
                simp [runEvent, invokeIndex, LOADPRESTATE_FUNC_INDEX,
                  SAVEPOSTSTATE_FUNC_INDEX, BLOCKDATASIZE_FUNC_INDEX,
                  BLOCKDATACOPY_FUNC_INDEX]]
            exact StepR.copy_noargs rt [p] (by simp)
          · rw [show runEvent rt (GuestEvent.hostCall 2 [p, o]) =
              Except.error "abort: args.nth" from by
                simp [runEvent, invokeIndex, LOADPRESTATE_FUNC_INDEX,
                  SAVEPOSTSTATE_FUNC_INDEX, BLOCKDATASIZE_FUNC_INDEX,
                  BLOCKDATACOPY_FUNC_INDEX]]
            exact StepR.copy_noargs rt [p, o] (by simp)
          · by_cases hc : o ≤ l ∧ l ≤ rt.block_data.data.length
            · cases hm : memSet rt.memory p
                ((rt.block_data.data.drop o).take (l - o)) with
              | some m =>
                rw [show runEvent rt
                    (GuestEvent.hostCall 2 (p :: o :: l :: rest)) =
                    Except.ok { rt with memory := m } from by
                  simp [runEvent, invokeIndex, LOADPRESTATE_FUNC_INDEX,
                    SAVEPOSTSTATE_FUNC_INDEX, BLOCKDATASIZE_FUNC_INDEX,
                    BLOCKDATACOPY_FUNC_INDEX, hc, hm]]
                exact StepR.copy_some rt p o l rest m hc hm
              | none =>
                rw [show runEvent rt
                    (GuestEvent.hostCall 2 (p :: o :: l :: rest)) =
                    Except.error "abort: memory.set unwrap in blockdatacopy"
                    from by
                  simp [runEvent, invokeIndex, LOADPRESTATE_FUNC_INDEX,
                    SAVEPOSTSTATE_FUNC_INDEX, BLOCKDATASIZE_FUNC_INDEX,
                    BLOCKDATACOPY_FUNC_INDEX, hc, hm]]
                exact StepR.copy_none rt p o l rest hc hm
            · rw [show runEvent rt
                  (GuestEvent.hostCall 2 (p :: o :: l :: rest)) =
                  Except.error "abort: slice index out of range in blockdatacopy"
                  from by
                simp [runEvent, invokeIndex, LOADPRESTATE_FUNC_INDEX,
                  SAVEPOSTSTATE_FUNC_INDEX, BLOCKDATASIZE_FUNC_INDEX,
                  BLOCKDATACOPY_FUNC_INDEX, hc]]
              exact StepR.copy_slice rt p o l rest hc
        · by_cases h3 : index = 3
          · subst h3
            cases args with
            | nil =>
              rw [show runEvent rt (GuestEvent.hostCall 3 []) =
                Except.error "abort: args.nth" from by
                  simp [runEvent, invokeIndex, LOADPRESTATE_FUNC_INDEX,
                    SAVEPOSTSTATE_FUNC_INDEX]]
              exact StepR.save_noargs rt
            | cons p rest =>
              cases hm : memGet rt.memory p rt.post_state.bytes.length with
              | some bs =>
                rw [show runEvent rt (GuestEvent.hostCall 3 (p :: rest)) =
                  Except.ok { rt with post_state := ⟨bs⟩ } from by
                    simp [runEvent, invokeIndex, LOADPRESTATE_FUNC_INDEX,
                      SAVEPOSTSTATE_FUNC_INDEX, hm]]
                exact StepR.save_some rt p rest bs hm
              | none =>
                rw [show runEvent rt (GuestEvent.hostCall 3 (p :: rest)) =
                  Except.error "abort: memory.get_into unwrap in savepoststate"
                  from by
                    simp [runEvent, invokeIndex, LOADPRESTATE_FUNC_INDEX,
                      SAVEPOSTSTATE_FUNC_INDEX, hm]]
                exact StepR.save_none rt p rest hm
          · by_cases h4 : index = 4
            · subst h4
              rw [show runEvent rt (GuestEvent.hostCall 4 args) =
                Except.error "abort: unimplemented pushnewdeposit" from by
                  simp [runEvent, invokeIndex, LOADPRESTATE_FUNC_INDEX,
                    SAVEPOSTSTATE_FUNC_INDEX, BLOCKDATASIZE_FUNC_INDEX,
                    BLOCKDATACOPY_FUNC_INDEX, PUSHNEWDEPOSIT_FUNC_INDEX]]
              exact StepR.push rt args
            · rw [show runEvent rt (GuestEvent.hostCall index args) =
                Except.error "abort: unknown function index" from by
                  simp [runEvent, invokeIndex, LOADPRESTATE_FUNC_INDEX,
                    SAVEPOSTSTATE_FUNC_INDEX, BLOCKDATASIZE_FUNC_INDEX,
                    BLOCKDATACOPY_FUNC_INDEX, PUSHNEWDEPOSIT_FUNC_INDEX,
                    h0, h1, h2, h3, h4]]
              exact StepR.unknown rt index args h0 h1 h2 h3 h4

theorem runEvent_post_length {rt : Runtime} {ev : GuestEvent} {rt' : Runtime}
    (h : runEvent rt ev = Except.ok rt') :
    rt'.post_state.bytes.length = rt.post_state.bytes.length := by
  have hs := runEvent_StepR rt ev
  rw [h] at hs
  cases hs with
  | load_some p rest m hm => rfl
  | save_some p rest bs hm => exact memGet_length hm
  | datasize args => rfl
  | copy_some p o l rest m hc hm => rfl
  | gw_some p bytes m hm => rfl

theorem runEvent_post_of_not_save {rt : Runtime} {ev : GuestEvent}
    {rt' : Runtime} (hns : isSaveCall ev = false)
    (h : runEvent rt ev = Except.ok rt') :
    rt'.post_state = rt.post_state := by
  have hs := runEvent_StepR rt ev
  rw [h] at hs
  cases hs with
  | load_some p rest m hm => rfl
  | save_some p rest bs hm => exact absurd hns (by simp [isSaveCall, SAVEPOSTSTATE_FUNC_INDEX])
  | datasize args => rfl
  | copy_some p o l rest m hc hm => rfl
  | gw_some p bytes m hm => rfl

theorem runEvents_post_length {evs : List GuestEvent} :
    ∀ {rt rt' : Runtime}, runEvents rt evs = Except.ok rt' →
    rt'.post_state.bytes.length = rt.post_state.bytes.length := by
  induction evs with
  | nil =>
    intro rt rt' h
    injection h with h
    subst h
    rfl
  | cons ev evs ih =>
    intro rt rt' h
    unfold runEvents at h
    cases hre : runEvent rt ev with
    | ok rt1 =>
      rw [hre] at h
      rw [ih h, runEvent_post_length hre]
    | error e => rw [hre] at h; exact absurd h (by simp)

theorem runEvents_post_of_no_save {evs : List GuestEvent} :
    ∀ {rt rt' : Runtime}, (∀ ev ∈ evs, isSaveCall ev = false) →
    runEvents rt evs = Except.ok rt' →
    rt'.post_state = rt.post_state := by
  induction evs with
  | nil =>
    intro rt rt' _ h
    injection h with h
    subst h
    rfl
  | cons ev evs ih =>
    intro rt rt' hns h
    unfold runEvents at h
    cases hre : runEvent rt ev with
    | ok rt1 =>
      rw [hre] at h
      rw [ih (fun e he => hns e (List.mem_cons_of_mem _ he)) h,
        runEvent_post_of_not_save (hns ev (List.mem_cons_self _ _)) hre]
    | error e => rw [hre] at h; exact absurd h (by simp)

/-! Claim theorems. -/

/-- Claim C1: the claim says the transition extends `exec_env_states`
only when `env` is out of bounds and adds no slot when `env` is already
within bounds.  The source instead pushes `env` zero digests
unconditionally (main.rs lines 262–264): with two existing slots and
`env = 1` the final state has three slots, not two; and with zero
existing slots and `env = 0` nothing is pushed, so the read of
`exec_env_states[0]` aborts instead of running the script on a
zero-extended state. -/
theorem process_shard_block_pushes_unconditionally :
    (process_shard_block guestOkEmpty
        ⟨[ZERO_HASH, ZERO_HASH], 0, ShardBlockHeader.mk⟩
        ⟨[⟨[]⟩, ⟨[]⟩]⟩ (some ⟨1, ⟨[]⟩⟩) =
      Except.ok ⟨[ZERO_HASH, ZERO_HASH, ZERO_HASH], 0, ShardBlockHeader.mk⟩) ∧
    (process_shard_block guestOkEmpty ⟨[], 0, ShardBlockHeader.mk⟩
        ⟨[⟨[]⟩]⟩ (some ⟨0, ⟨[]⟩⟩) =
      Except.error ("abort: index out of bounds on exec_env_states",
        ⟨[], 0, ShardBlockHeader.mk⟩)) :=
  ⟨rfl, rfl⟩

/-- Claim C2: the claim says every failing transition leaves the state
exactly as before and surfaces a typed, recoverable error.  In the
source a module without a `memory` export makes `execute_code` abort
the host (an `expect`, not a typed error value), and by that time the
hole-filling loop has already pushed a zero digest: the state held at
the abort has two slots while the input state had one. -/
theorem transition_failure_aborts_with_mutated_state :
    (process_shard_block guestNoMemoryExport
        ⟨[ZERO_HASH], 0, ShardBlockHeader.mk⟩ ⟨[⟨[]⟩, ⟨[]⟩]⟩
        (some ⟨1, ⟨[]⟩⟩) =
      Except.error ("abort: Module expected to have memory export",
        ⟨[ZERO_HASH, ZERO_HASH], 0, ShardBlockHeader.mk⟩)) ∧
    (⟨[ZERO_HASH, ZERO_HASH], 0, ShardBlockHeader.mk⟩ : ShardState) ≠
      ⟨[ZERO_HASH], 0, ShardBlockHeader.mk⟩ :=
  ⟨rfl, by decide⟩

/-- Claim C3: the claim says `block_data_copy(dest, src_offset, length)`
copies the `length` bytes at `[src_offset, src_offset + length)` and
fails with a typed `MemoryAccessViolation` when `src_offset + length`
exceeds the block body.  The source slices `data[offset..length]`
instead: with body `[10, 20, 30]`, `dest = 0`, `src_offset = 1`,
`length = 2` it copies the single byte `20` (the claim requires the two
bytes `20, 30`); with `src_offset = 2`, `length = 2` it succeeds
copying nothing (the claim requires failure, as `2 + 2 > 3`); and with
`length = 5` it aborts the host instead of returning a typed error. -/
theorem blockdatacopy_wrong_slice :
    (invokeIndex rtSmall BLOCKDATACOPY_FUNC_INDEX [0, 1, 2] =
      Except.ok (none,
        { rtSmall with memory := [20, 0, 0, 0, 0, 0, 0, 0] })) ∧
    (invokeIndex rtSmall BLOCKDATACOPY_FUNC_INDEX [0, 2, 2] =
      Except.ok (none, rtSmall)) ∧
    (invokeIndex rtSmall BLOCKDATACOPY_FUNC_INDEX [0, 1, 5] =
      Except.error "abort: slice index out of range in blockdatacopy") :=
  ⟨rfl, rfl, rfl⟩

/-- Claim C4: the claim says every host operation that receives a guest
memory offset validates the accessed range and returns the typed error
`MemoryAccessViolation` when it is out of bounds.  In the source the
bounds checks are `TODO`s: the failed wasmi memory access is unwrapped,
so an out-of-range `load_pre_state`, `save_post_state` or
`block_data_copy` aborts the host instead of returning a typed error
(on the 8-byte memory of `rtSmall`, offset 0 leaves no room for a
32-byte digest, and offset 7 leaves no room for 3 bytes). -/
theorem host_ops_abort_on_oob :
    (invokeIndex rtSmall LOADPRESTATE_FUNC_INDEX [0] =
      Except.error "abort: memory.set unwrap in loadprestate") ∧
    (invokeIndex rtSmall SAVEPOSTSTATE_FUNC_INDEX [0] =
      Except.error "abort: memory.get_into unwrap in savepoststate") ∧
    (invokeIndex rtSmall BLOCKDATACOPY_FUNC_INDEX [7, 0, 3] =
      Except.error "abort: memory.set unwrap in blockdatacopy") :=
  ⟨rfl, rfl, rfl⟩

/-- Claim C5: the claim says a block whose `env` is at or beyond
`len(beacon.execution_scripts)` fails with the typed error
`UnknownEnvironmentError` and leaves the state unchanged.  The source
indexes `execution_scripts[env]` without a check (main.rs line 259):
the state is indeed unchanged at that point, but the failure is an
index-out-of-bounds host abort, not a typed error value. -/
theorem unknown_environment_aborts_untyped :
    process_shard_block guestOkEmpty ⟨[ZERO_HASH], 0, ShardBlockHeader.mk⟩
      ⟨[]⟩ (some ⟨0, ⟨[]⟩⟩) =
    Except.error ("abort: index out of bounds on execution_scripts",
      ⟨[ZERO_HASH], 0, ShardBlockHeader.mk⟩) :=
  rfl

/-- Claim C6: loading the pre-state into guest memory at an in-bounds
offset `p` and immediately saving the post-state from the same offset
makes the session post-state digest equal to the pre-state digest. -/
theorem load_then_save_roundtrip (rt : Runtime) (p : Nat)
    (hpre : rt.pre_state.bytes.length = 32)
    (hpost : rt.post_state.bytes.length = 32)
    (hp : p + 32 ≤ rt.memory.length) :
    ∃ rt1 rt2,
      invokeIndex rt LOADPRESTATE_FUNC_INDEX [p] = Except.ok (none, rt1) ∧
      invokeIndex rt1 SAVEPOSTSTATE_FUNC_INDEX [p] = Except.ok (none, rt2) ∧
      rt2.post_state = rt.pre_state := by
  have hm : memSet rt.memory p rt.pre_state.bytes =
      some (rt.memory.take p ++ rt.pre_state.bytes ++
        rt.memory.drop (p + rt.pre_state.bytes.length)) :=
    memSet_isSome (by rw [hpre]; exact hp)
  refine ⟨{ rt with memory := rt.memory.take p ++ rt.pre_state.bytes ++
      rt.memory.drop (p + rt.pre_state.bytes.length) },
    { rt with
        memory := rt.memory.take p ++ rt.pre_state.bytes ++
          rt.memory.drop (p + rt.pre_state.bytes.length)
        post_state := ⟨rt.pre_state.bytes⟩ }, ?_, ?_, ?_⟩
  · simp [invokeIndex, LOADPRESTATE_FUNC_INDEX, hm]
  · have hg : memGet (rt.memory.take p ++ rt.pre_state.bytes ++
        rt.memory.drop (p + rt.pre_state.bytes.length)) p
        rt.post_state.bytes.length = some rt.pre_state.bytes := by
      rw [hpost, ← hpre]
      exact memGet_memSet hm
    rw [List.append_assoc] at hg
    simp [invokeIndex, LOADPRESTATE_FUNC_INDEX, SAVEPOSTSTATE_FUNC_INDEX, hg]
  · rfl

/-- Witness for `load_then_save_roundtrip` at `rtRound` and offset 0. -/
theorem load_then_save_roundtrip_witness :
    (rtRound.pre_state.bytes.length = 32 ∧
      rtRound.post_state.bytes.length = 32 ∧
      0 + 32 ≤ rtRound.memory.length) ∧
    (∃ rt1 rt2,
      invokeIndex rtRound LOADPRESTATE_FUNC_INDEX [0] =
        Except.ok (none, rt1) ∧
      invokeIndex rt1 SAVEPOSTSTATE_FUNC_INDEX [0] =
        Except.ok (none, rt2) ∧
      rt2.post_state = rtRound.pre_state) :=
  ⟨⟨by decide, by decide, by decide⟩,
    load_then_save_roundtrip rtRound 0 (by decide) (by decide) (by decide)⟩

/-- Claim C7: after a successful execution the result digest is the 32
bytes read by the most recent save-post-state call (read from the
memory state reached just before that call), and the zero digest when
the guest never called save-post-state. -/
theorem post_state_last_save_wins (g : GuestBehavior) (code : List Nat)
    (pre_state : Bytes32) (block_data : ShardBlockBody)
    (res : Bytes32 × List Deposit)
    (hok : execute_code g code pre_state block_data = Except.ok res) :
    ((∀ ev ∈ g.events, isSaveCall ev = false) → res.1 = Bytes32.default) ∧
    (∀ (evs1 : List GuestEvent) (p : Nat) (rest : List Nat)
        (evs2 : List GuestEvent),
      g.events = evs1 ++
        GuestEvent.hostCall SAVEPOSTSTATE_FUNC_INDEX (p :: rest) :: evs2 →
      (∀ ev ∈ evs2, isSaveCall ev = false) →
      ∃ rt1 bs,
        runEvents (initialRuntime g pre_state block_data) evs1 =
          Except.ok rt1 ∧
        memGet rt1.memory p 32 = some bs ∧
        res.1 = ⟨bs⟩) := by
  unfold execute_code at hok
  split at hok
  · exact absurd hok (by simp)
  · split at hok
    · exact absurd hok (by simp)
    · split at hok
      · exact absurd hok (by simp)
      · cases hrunF : runEvents (initialRuntime g pre_state block_data)
            g.events with
        | error e => rw [hrunF] at hok; exact absurd hok (by simp)
        | ok rtF =>
          simp only [hrunF] at hok
          split at hok
          · exact absurd hok (by simp)
          · injection hok with hok
            subst hok
            constructor
            · intro hns
              have hpost := runEvents_post_of_no_save hns hrunF
              simpa [initialRuntime] using hpost
            · intro evs1 p rest evs2 hsplit hns
              rw [hsplit, runEvents_append] at hrunF
              cases hrun1 : runEvents (initialRuntime g pre_state block_data)
                  evs1 with
              | error e => rw [hrun1] at hrunF; exact absurd hrunF (by simp)
              | ok rt1 =>
                rw [hrun1] at hrunF
                have hlen : rt1.post_state.bytes.length = 32 := by
                  have h32 := runEvents_post_length hrun1
                  simpa [initialRuntime, Bytes32.default] using h32
                cases hm : memGet rt1.memory p rt1.post_state.bytes.length with
                | none =>
                  have hre : runEvent rt1 (GuestEvent.hostCall
                      SAVEPOSTSTATE_FUNC_INDEX (p :: rest)) =
                      Except.error
                        "abort: memory.get_into unwrap in savepoststate" := by
                    simp [runEvent, invokeIndex, LOADPRESTATE_FUNC_INDEX,
                      SAVEPOSTSTATE_FUNC_INDEX, hm]
                  simp only [runEvents, hre] at hrunF
                  exact absurd hrunF (by simp)
                | some bs =>
                  have hre : runEvent rt1 (GuestEvent.hostCall
                      SAVEPOSTSTATE_FUNC_INDEX (p :: rest)) =
                      Except.ok { rt1 with post_state := ⟨bs⟩ } := by
                    simp [runEvent, invokeIndex, LOADPRESTATE_FUNC_INDEX,
                      SAVEPOSTSTATE_FUNC_INDEX, hm]
                  simp only [runEvents, hre] at hrunF
                  have hpost := runEvents_post_of_no_save hns hrunF
                  exact ⟨rt1, bs, rfl, by rw [← hlen]; exact hm,
                    by simpa using hpost⟩

/-- Witness for `post_state_last_save_wins` with a guest that saves the
bytes at offset 0 of its 32-byte memory filled with the byte 7. -/
theorem post_state_last_save_wins_witness :
    (execute_code guestSaveOnce [] ZERO_HASH ⟨[]⟩ =
      Except.ok (⟨List.replicate 32 7⟩, [Deposit.mk])) ∧
    (∃ rt1 bs,
      runEvents (initialRuntime guestSaveOnce ZERO_HASH ⟨[]⟩) [] =
        Except.ok rt1 ∧
      memGet rt1.memory 0 32 = some bs ∧
      (⟨List.replicate 32 7⟩ : Bytes32) = ⟨bs⟩) :=
  ⟨rfl, (post_state_last_save_wins guestSaveOnce [] ZERO_HASH ⟨[]⟩
    (⟨List.replicate 32 7⟩, [Deposit.mk]) rfl).2 [] 0 [] [] rfl (by simp)⟩

/-- Claim C8: the execution step admits at most one outcome per input:
any two runs of the relational semantics on the same
(guest behaviour, code, pre-state, block data) produce the same result,
in particular the same post-state digest. -/
theorem execution_deterministic (g : GuestBehavior) (code : List Nat)
    (pre_state : Bytes32) (block_data : ShardBlockBody)
    (r1 r2 : Except String (Bytes32 × List Deposit))
    (h1 : ExecR g code pre_state block_data r1)
    (h2 : ExecR g code pre_state block_data r2) : r1 = r2 :=
  (ExecR_execute_code h1).symm.trans (ExecR_execute_code h2)

/-- Witness for `execution_deterministic`: two derivations of the run
of `guestSaveOnce` yield the same result. -/
theorem execution_deterministic_witness :
    (Except.ok (Bytes32.mk (List.replicate 32 7), [Deposit.mk]) :
      Except String (Bytes32 × List Deposit)) =
    Except.ok (Bytes32.mk (List.replicate 32 7), [Deposit.mk]) := by
  have hstep : StepR (initialRuntime guestSaveOnce ZERO_HASH ⟨[]⟩)
      (GuestEvent.hostCall 3 [0])
      (Except.ok { initialRuntime guestSaveOnce ZERO_HASH ⟨[]⟩ with
        post_state := ⟨List.replicate 32 7⟩ }) :=
    StepR.save_some _ 0 [] (List.replicate 32 7) rfl
  have hrun : RunR (initialRuntime guestSaveOnce ZERO_HASH ⟨[]⟩)
      guestSaveOnce.events
      (Except.ok { initialRuntime guestSaveOnce ZERO_HASH ⟨[]⟩ with
        post_state := ⟨List.replicate 32 7⟩ }) :=
    RunR.consOk _ _ _ _ _ hstep (RunR.nil _)
  have hd : ExecR guestSaveOnce [] ZERO_HASH ⟨[]⟩
      (Except.ok (Bytes32.mk (List.replicate 32 7), [Deposit.mk])) :=
    ExecR.success _ rfl rfl rfl hrun rfl
  exact execution_deterministic guestSaveOnce [] ZERO_HASH ⟨[]⟩ _ _ hd hd

/-- Claim C9: the claim says a push-new-deposit call with an in-range
pointer and a decodable payload appends a deposit and returns to the
guest.  The source arm is unimplemented and aborts the host on every
call, even at the in-range offset 0 of the 40-byte memory of
`rtRound` (and the marker `Deposit` has no payload to fail decoding). -/
theorem pushnewdeposit_always_aborts :
    invokeIndex rtRound PUSHNEWDEPOSIT_FUNC_INDEX [0] =
      Except.error "abort: unimplemented pushnewdeposit" :=
  rfl

/-- Claim C10: every successful execution returns the fixed one-element
deposit list containing the empty `Deposit` marker, independent of the
guest behaviour. -/
theorem execute_code_deposits_singleton (g : GuestBehavior)
    (code : List Nat) (pre_state : Bytes32) (block_data : ShardBlockBody)
    (res : Bytes32 × List Deposit)
    (hok : execute_code g code pre_state block_data = Except.ok res) :
    res.2 = [Deposit.mk] := by
  unfold execute_code at hok
  split at hok
  · exact absurd hok (by simp)
  · split at hok
    · exact absurd hok (by simp)
    · split at hok
      · exact absurd hok (by simp)
      · cases hrun : runEvents (initialRuntime g pre_state block_data)
            g.events with
        | error e => rw [hrun] at hok; exact absurd hok (by simp)
        | ok rt =>
          simp only [hrun] at hok
          split at hok
          · exact absurd hok (by simp)
          · injection hok with hok
            subst hok
            rfl

/-- Witness for `execute_code_deposits_singleton` at a trivial guest. -/
theorem execute_code_deposits_singleton_witness :
    (execute_code guestOkEmpty [] ZERO_HASH ⟨[]⟩ =
      Except.ok (Bytes32.default, [Deposit.mk])) ∧
    (Bytes32.default, [Deposit.mk]).2 = [Deposit.mk] :=
  ⟨rfl, execute_code_deposits_singleton guestOkEmpty [] ZERO_HASH ⟨[]⟩
    (Bytes32.default, [Deposit.mk]) rfl⟩

end Scout
